import Mathlib

/-!
# Verification of the Mother Discord-bot core

A shallow embedding, in Lean 4, of the pieces of the Mother repository
(`packages/mother/src`) that its specification talks about:

* `tools/guard.ts` — the path guard (`initPathGuard` / `guardPath`) and the
  command guard (`CRITICAL_PATTERNS`, `splitCommandSegments`,
  `extractCommandName`, `guardCommand`), together with the relevant parts of
  Node's `path.normalize` / `path.resolve` (POSIX flavour) that the path guard
  calls into;
* `store.ts` — `ChannelStore.logMessage` and its 60-second dedup window;
* `discord.ts` — `DiscordBot.logToFile` / `logUserMessage`,
  `ChannelQueue.enqueue`, `enqueueEvent`, and the inbound-message routing of
  `setupEventHandlers`;
* `main.ts` — the stop protocol (`handleStop`, the post-run `*Stopped*`
  update) and `createDiscordContext.deleteMessage`;
* `agent.ts` — `trimContextByTurns` and the `[SILENT]` finalization branch of
  `run`.

JavaScript strings are modelled as Lean `String`s (sequences of code points),
machine integers as `Nat`, and the stateful module-level variables as explicit
parameters / state records.  Regular expressions from the source are embedded
as a small backtracking matcher (`RE`) whose semantics is "a match exists",
which coincides with JavaScript's `RegExp.test`.
-/

namespace Mother

/-! ## Character helpers

Characters that the banned-free source text cannot spell directly are named
here once. -/

/-- The single-quote character. -/
def chSQ : Char := Char.ofNat 39

/-- The double-quote character. -/
def chDQ : Char := Char.ofNat 34

/-- The backslash character. -/
def chBS : Char := Char.ofNat 92

/-- The left-brace character. -/
def chLB : Char := Char.ofNat 123

/-- The right-brace character. -/
def chRB : Char := Char.ofNat 125

/-- Tab. -/
def chTab : Char := Char.ofNat 9

/-- Line feed. -/
def chLF : Char := Char.ofNat 10

/-- Carriage return. -/
def chCR : Char := Char.ofNat 13

/-- A quote character as a 1-char string (for building reason literals). -/
def sq : String := String.singleton chSQ

/-- JavaScript's whitespace set, as used by `String.prototype.trim` and by the
regex class `\s`: ASCII blanks plus NBSP, the line/paragraph separators and
the BOM.  (The rarely used fixed-width Unicode spaces are omitted; no input
in this development contains them.) -/
def jsWhitespace (c : Char) : Bool :=
  c = ' ' || c = chTab || c = chLF || c = chCR ||
  c = Char.ofNat 0x0B || c = Char.ofNat 0x0C ||
  c = Char.ofNat 0xA0 || c = Char.ofNat 0x2028 ||
  c = Char.ofNat 0x2029 || c = Char.ofNat 0xFEFF

/-- `s.trim()` of JavaScript on a list of characters. -/
def jsTrimList (cs : List Char) : List Char :=
  ((cs.dropWhile jsWhitespace).reverse.dropWhile jsWhitespace).reverse

/-- `s.trim()` of JavaScript. -/
def jsTrim (s : String) : String := String.mk (jsTrimList s.data)

/-- ASCII letter, the regex class `[a-zA-Z]`. -/
def asciiAlpha (c : Char) : Bool :=
  ('a' ≤ c && c ≤ 'z') || ('A' ≤ c && c ≤ 'Z')

/-- The regex class `\w` = `[A-Za-z0-9_]` (used for the `\b` boundary). -/
def wordChar (c : Char) : Bool := asciiAlpha c || c.isDigit || c = '_'

/-- Split a character list at every occurrence of `sep`, JavaScript
`String.prototype.split` with a one-character separator. -/
def splitListOn (sep : Char) : List Char → List (List Char)
  | [] => [[]]
  | c :: rest =>
    if c = sep then [] :: splitListOn sep rest
    else
      match splitListOn sep rest with
      | h :: t => (c :: h) :: t
      | [] => [[c]]

end Mother

namespace Mother.NodePath

/-! ## Node `path` (POSIX)

The path guard calls `normalize` and `resolve` from `node:path`.  The
embedding below mirrors Node's `posix.normalize` and the two-argument use
`resolve(workspaceDir, inputPath)`; the branch in which Node would consult
`process.cwd()` (a relative `workspaceDir` and a relative input) is outside
the faithful domain and every theorem that depends on `resolve` carries the
hypothesis that the base directory is absolute. -/

/-- One step of Node's `normalizeString`: fold a path component onto the
stack of already-emitted components (held in reverse order).  `allowAboveRoot`
is true for relative paths, where leading `..` components survive. -/
def normStep (allowAboveRoot : Bool) (stack : List (List Char)) (comp : List Char) :
    List (List Char) :=
  if comp = [] ∨ comp = ['.'] then stack
  else if comp = ['.', '.'] then
    match stack with
    | t :: rest => if t = ['.', '.'] then comp :: stack else rest
    | [] => if allowAboveRoot then [comp] else []
  else comp :: stack

/-- Join components with `/`. -/
def joinComps (l : List (List Char)) : List Char := (l.intersperse ['/']).flatten

/-- The collapsed body of a path: components with `..` and `.` resolved. -/
def collapse (allowAboveRoot : Bool) (cs : List Char) : List Char :=
  joinComps ((splitListOn '/' cs).foldl (normStep allowAboveRoot) []).reverse

/-- Node `path.posix.normalize`. -/
def normalize (p : String) : String :=
  if p = "" then "."
  else
    let cs := p.data
    let isAbs := cs.head? = some '/'
    let trailing := cs.getLast? = some '/'
    let body := collapse (!isAbs) cs
    if body = [] then
      if isAbs then "/" else if trailing then "./" else "."
    else
      let body := if trailing then body ++ ['/'] else body
      if isAbs then String.mk ('/' :: body) else String.mk body

/-- Node `path.posix.resolve` applied to two arguments, assuming the first is
an absolute directory (the only way the source calls it). -/
def resolve (base input : String) : String :=
  let (joined, isAbs) :=
    if input.data.head? = some '/' then (input.data, true)
    else ((base ++ "/" ++ input).data, base.data.head? = some '/')
  let body := collapse (!isAbs) joined
  if isAbs then (if body = [] then "/" else String.mk ('/' :: body))
  else (if body = [] then "." else String.mk body)

end Mother.NodePath

namespace Mother.Guard

open Mother NodePath

/-- `GuardResult` from `tools/guard.ts`. -/
structure GuardResult where
  allowed : Bool
  reason : Option String := none
  resolvedPath : Option String := none
deriving DecidableEq, Repr

/-- `initPathGuard(workspaceDir, extraPaths?)` from `tools/guard.ts`: the
value of the module variable `allowedPrefixes` after the call. -/
def initPathGuard (workspaceDir : String) (extraPaths : Option (List String)) :
    List String :=
  [NodePath.normalize workspaceDir, "/tmp"] ++
    (match extraPaths with
     | none => []
     | some ps => ((ps.map jsTrim).filter (· ≠ "")).map NodePath.normalize)

/-- `guardPath(inputPath, workspaceDir)` from `tools/guard.ts`, with the
module variable `allowedPrefixes` made explicit.  The source's `for` loop
returns the same success result for every matching prefix, so it is rendered
with `List.any`. -/
def guardPath (allowedPrefixes : List String) (inputPath workspaceDir : String) :
    GuardResult :=
  if allowedPrefixes.isEmpty then
    { allowed := true, resolvedPath := some inputPath }
  else if allowedPrefixes.any
      (fun p =>
        NodePath.normalize (NodePath.resolve workspaceDir inputPath) == p ||
        List.isPrefixOf (p ++ "/").data
          (NodePath.normalize (NodePath.resolve workspaceDir inputPath)).data) then
    { allowed := true,
      resolvedPath := some (NodePath.normalize (NodePath.resolve workspaceDir inputPath)) }
  else
    { allowed := false,
      reason := some ("Path denied: " ++ inputPath ++ " (resolved: "
        ++ NodePath.normalize (NodePath.resolve workspaceDir inputPath)
        ++ ") is outside allowed directories") }

end Mother.Guard

namespace Mother.Regex

/-! ## A tiny regex matcher

`CRITICAL_PATTERNS` in `tools/guard.ts` and the header-stripper in
`agent.ts` use JavaScript regular expressions.  The fragment they need is
embedded here: literal characters, character classes, class-star, sequencing,
alternation, an optional group and the `$` anchor.  The matcher enumerates
every split, so `test` holds exactly when *some* match exists — which is
precisely the semantics of JavaScript `RegExp.prototype.test`. -/

/-- Regular-expression fragment used by the source's patterns. -/
inductive RE where
  | eps : RE
  | char : Char → RE
  | cls : (Char → Bool) → RE
  | clsStar : (Char → Bool) → RE
  | seq : RE → RE → RE
  | alt : RE → RE → RE
  | opt : RE → RE
  | eos : RE

/-- Try `k` on every suffix reachable by consuming characters of class `p`. -/
def starSplits (p : Char → Bool) (cs : List Char) (k : List Char → Bool) : Bool :=
  k cs ||
    match cs with
    | [] => false
    | c :: rest => p c && starSplits p rest k

/-- CPS matcher: `matchRE r cs k` holds iff some prefix of `cs` matches `r`
and `k` accepts the remaining suffix. -/
def matchRE : RE → List Char → (List Char → Bool) → Bool
  | .eps, cs, k => k cs
  | .char c, cs, k =>
    match cs with
    | [] => false
    | d :: rest => c = d && k rest
  | .cls p, cs, k =>
    match cs with
    | [] => false
    | d :: rest => p d && k rest
  | .clsStar p, cs, k => starSplits p cs k
  | .seq a b, cs, k => matchRE a cs (fun rest => matchRE b rest k)
  | .alt a b, cs, k => matchRE a cs k || matchRE b cs k
  | .opt a, cs, k => k cs || matchRE a cs k
  | .eos, cs, k => cs.isEmpty && k cs

/-- `\b` before a word character: satisfied at the start of the string or
after a non-word character. -/
def boundaryBefore (prev : Option Char) : Bool :=
  match prev with
  | none => true
  | some c => !wordChar c

/-- Unanchored search, JavaScript `re.test(s)`: try a match at every start
position.  `needsB` demands a `\b` boundary at the match start (all uses
start with a word character, so the boundary reduces to the previous
character not being a word character). -/
def searchFrom (needsB : Bool) (re : RE) (prev : Option Char) (cs : List Char) : Bool :=
  ((!needsB || boundaryBefore prev) && matchRE re cs (fun _ => true)) ||
    match cs with
    | [] => false
    | c :: rest => searchFrom needsB re (some c) rest

/-- `re.test(s)` for a pattern with an optional leading `\b`. -/
def reTest (needsB : Bool) (re : RE) (s : String) : Bool :=
  searchFrom needsB re none s.data

/-- Right-nested sequencing of a pattern list. -/
def reSeq (rs : List RE) : RE := rs.foldr .seq .eps

/-- `\s+` as class-then-star. -/
def rePlus (p : Char → Bool) : RE := .seq (.cls p) (.clsStar p)

end Mother.Regex

namespace Mother.Guard

open Mother Regex

/-- `DEFAULT_ALLOWED_COMMANDS` from `tools/guard.ts`. -/
def DEFAULT_ALLOWED_COMMANDS : List String :=
  ["ls", "cat", "head", "tail", "wc", "file", "stat", "du", "df", "cp", "mv",
   "rm", "mkdir", "touch", "chmod", "chown", "ln", "readlink", "realpath",
   "basename", "dirname", "mktemp",
   "find", "grep", "egrep", "fgrep", "rg", "fd",
   "sed", "awk", "sort", "uniq", "cut", "tr", "tee", "xargs", "diff", "comm",
   "paste", "column", "fold", "fmt", "nl",
   "npm", "npx", "node", "git", "python", "python3", "pip", "pip3", "make",
   "gcc", "g++", "cargo", "rustc", "go", "java", "javac", "tsc", "tsgo",
   "biome", "vitest", "jest", "bun", "deno",
   "curl", "wget", "ssh", "scp", "rsync",
   "tar", "zip", "unzip", "gzip", "gunzip", "bzip2", "xz",
   "date", "whoami", "uname", "hostname", "printenv", "which", "type",
   "whereis", "id", "groups", "uptime",
   "jq", "yq", "base64", "md5sum", "sha256sum", "sleep", "timeout", "seq",
   "yes",
   "ps", "kill", "pgrep", "pkill", "lsof",
   "apt", "apt-get", "apk", "brew",
   "less", "more", "man", "clear", "tput"]

/-- `SHELL_BUILTINS` from `tools/guard.ts`. -/
def SHELL_BUILTINS : List String :=
  ["cd", "echo", "printf", "export", "pwd", "set", "unset", "read", "test",
   "[", "true", "false", "exit", "return", "shift", "wait", "trap", "source",
   ".", "local", "declare", "typeset", "alias", "unalias", "hash", "command",
   "builtin", "let", "getopts", "pushd", "popd", "dirs", "umask", "ulimit",
   "times", "bg", "fg", "jobs", "disown", "enable", "help", "logout",
   "mapfile", "readarray", "compgen", "complete", "compopt", "coproc",
   "select", "shopt"]

/-- The regex `\brm\s+(-[a-zA-Z]*f[a-zA-Z]*\s+)?-[a-zA-Z]*r[a-zA-Z]*\s+\/(\s|$|\*)`
(first entry of `CRITICAL_PATTERNS`); the `\b` is carried separately. -/
def rmPatFR : RE :=
  reSeq [.char 'r', .char 'm', rePlus jsWhitespace,
    .opt (reSeq [.char '-', .clsStar asciiAlpha, .char 'f', .clsStar asciiAlpha,
      rePlus jsWhitespace]),
    .char '-', .clsStar asciiAlpha, .char 'r', .clsStar asciiAlpha,
    rePlus jsWhitespace, .char '/',
    .alt (.cls jsWhitespace) (.alt .eos (.char '*'))]

/-- The regex `\brm\s+(-[a-zA-Z]*r[a-zA-Z]*\s+)?-[a-zA-Z]*f[a-zA-Z]*\s+\/(\s|$|\*)`
(second entry of `CRITICAL_PATTERNS`). -/
def rmPatRF : RE :=
  reSeq [.char 'r', .char 'm', rePlus jsWhitespace,
    .opt (reSeq [.char '-', .clsStar asciiAlpha, .char 'r', .clsStar asciiAlpha,
      rePlus jsWhitespace]),
    .char '-', .clsStar asciiAlpha, .char 'f', .clsStar asciiAlpha,
    rePlus jsWhitespace, .char '/',
    .alt (.cls jsWhitespace) (.alt .eos (.char '*'))]

/-- The fork-bomb regex `:\(\)\s*\{\s*:\s*\|\s*:\s*&\s*\}\s*;\s*:` (third
entry of `CRITICAL_PATTERNS`). -/
def forkBombPat : RE :=
  reSeq [.char ':', .char '(', .char ')', .clsStar jsWhitespace, .char chLB,
    .clsStar jsWhitespace, .char ':', .clsStar jsWhitespace, .char '|',
    .clsStar jsWhitespace, .char ':', .clsStar jsWhitespace, .char '&',
    .clsStar jsWhitespace, .char chRB, .clsStar jsWhitespace, .char ';',
    .clsStar jsWhitespace, .char ':']

/-- `CRITICAL_PATTERNS` from `tools/guard.ts`: `(needs \b, pattern, reason)`. -/
def CRITICAL_PATTERNS : List (Bool × RE × String) :=
  [(true, rmPatFR, "Blocked: rm -rf /"),
   (true, rmPatRF, "Blocked: rm -rf /"),
   (false, forkBombPat, "Blocked: fork bomb")]

/-- The initial loop of `guardCommand`: the reason of the first critical
pattern that tests positive on the whole command, if any. -/
def criticalCheck (command : String) : Option String :=
  (CRITICAL_PATTERNS.find? (fun t => reTest t.1 t.2.1 command)).map (fun t => t.2.2)

/-- `splitCommandSegments` from `tools/guard.ts`, one source-loop iteration
per constructor case.  State: quote flags, the pending escape flag, the
current segment and the emitted segments.  The `i++` skip after `||` / `&&`
is the two-character pattern on the tail. -/
def splitAux : Nat → Bool → Bool → Bool → List Char → List String → List Char → List String
  | _, _, _, _, cur, acc, [] =>
    if jsTrimList cur = [] then acc else acc ++ [String.mk cur]
  | 0, _, _, _, cur, acc, _ =>
    if jsTrimList cur = [] then acc else acc ++ [String.mk cur]
  | n + 1, inS, inD, esc, cur, acc, c :: rest =>
    if esc then splitAux n inS inD false (cur ++ [c]) acc rest
    else if c = chBS then splitAux n inS inD true (cur ++ [c]) acc rest
    else if c = chSQ && !inD then splitAux n (!inS) inD false (cur ++ [c]) acc rest
    else if c = chDQ && !inS then splitAux n inS (!inD) false (cur ++ [c]) acc rest
    else if inS || inD then splitAux n inS inD false (cur ++ [c]) acc rest
    else if c = ';' then splitAux n inS inD false [] (acc ++ [String.mk cur]) rest
    else if c = '|' then
      match rest with
      | '|' :: rest2 => splitAux n inS inD false [] (acc ++ [String.mk cur]) rest2
      | _ => splitAux n inS inD false [] (acc ++ [String.mk cur]) rest
    else if c = '&' then
      match rest with
      | '&' :: rest2 => splitAux n inS inD false [] (acc ++ [String.mk cur]) rest2
      | _ => splitAux n inS inD false (cur ++ [c]) acc rest
    else splitAux n inS inD false (cur ++ [c]) acc rest

/-- `splitCommandSegments(command)` from `tools/guard.ts`.  Every loop
iteration consumes at least one character, so `command.length` iterations
always suffice and `splitAux`'s fuel-exhausted branch is unreachable. -/
def splitCommandSegments (command : String) : List String :=
  splitAux command.data.length false false false [] [] command.data

theorem jsTrimList_length_le (cs : List Char) : (jsTrimList cs).length ≤ cs.length := by
  unfold jsTrimList
  calc ((cs.dropWhile jsWhitespace).reverse.dropWhile jsWhitespace).reverse.length
      = ((cs.dropWhile jsWhitespace).reverse.dropWhile jsWhitespace).length := by
        exact List.length_reverse _
    _ ≤ (cs.dropWhile jsWhitespace).reverse.length :=
        (List.dropWhile_sublist _).length_le
    _ = (cs.dropWhile jsWhitespace).length := List.length_reverse _
    _ ≤ cs.length := (List.dropWhile_sublist _).length_le

/-- The loop body of the leading-`(`/`` `{` ``-stripping in
`extractCommandName`, with an explicit iteration bound (kept structural so
the kernel can evaluate it):
`while (trimmed.startsWith("(") || trimmed.startsWith("{"))
   trimmed = trimmed.slice(1).trim()`. -/
def stripGroupGo : Nat → List Char → List Char
  | _, [] => []
  | 0, cs => cs
  | n + 1, c :: rest =>
    if c = '(' ∨ c = chLB then stripGroupGo n (jsTrimList rest) else c :: rest

/-- The stripping loop of `extractCommandName`.  Every iteration removes at
least one character (`jsTrimList_length_le`), so `cs.length` iterations
always suffice and the fuel-exhausted branch is unreachable. -/
def stripGroupChars (cs : List Char) : List Char := stripGroupGo cs.length cs

/-- First character of the identifier class `[A-Za-z_]`. -/
def identStart (c : Char) : Bool := asciiAlpha c || c = '_'

/-- Identifier continuation class `[A-Za-z0-9_]`. -/
def identChar (c : Char) : Bool := identStart c || c.isDigit

/-- One test-and-replace of the env-assignment regex
`^[A-Za-z_][A-Za-z0-9_]*=\S*\s` / `^[A-Za-z_][A-Za-z0-9_]*=\S*\s+`:
returns the remainder after the greedy match if the test succeeds.  Both
the `[A-Za-z0-9_]*` (followed by `=`) and the `\S*` (followed by `\s`)
greedy runs are deterministic, so no backtracking is needed. -/
def matchEnvAssign (cs : List Char) : Option (List Char) :=
  match cs with
  | [] => none
  | c :: rest =>
    if identStart c then
      match rest.dropWhile identChar with
      | '=' :: rest3 =>
        match rest3.dropWhile (fun d => !jsWhitespace d) with
        | c4 :: rest5 =>
          if jsWhitespace c4 then some (rest5.dropWhile jsWhitespace) else none
        | [] => none
      | _ => none
    else none

theorem matchEnvAssign_shrinks {cs r : List Char} (h : matchEnvAssign cs = some r) :
    r.length < cs.length := by
  match cs with
  | [] => simp [matchEnvAssign] at h
  | c :: rest =>
    simp only [matchEnvAssign] at h
    split at h
    case isFalse => exact absurd h (by simp)
    case isTrue =>
      split at h
      case h_2 => exact absurd h (by simp)
      case h_1 _ rest3 heq =>
        have hsub1 : ('=' :: rest3).Sublist rest := by
          rw [← heq]; exact List.dropWhile_sublist _
        have hsub2 : rest3.length < rest.length := by
          have := hsub1.length_le
          simp only [List.length_cons] at this
          omega
        split at h
        case h_2 => exact absurd h (by simp)
        case h_1 _ c4 rest5 heq2 =>
          split at h
          case isFalse => exact absurd h (by simp)
          case isTrue =>
            have hr : r = rest5.dropWhile jsWhitespace := by
              cases h; rfl
            have hsub3 : (c4 :: rest5).Sublist rest3 := by
              rw [← heq2]; exact List.dropWhile_sublist _
            have hsub4 : rest5.length < rest3.length := by
              have := hsub3.length_le
              simp only [List.length_cons] at this
              omega
            have hle : r.length ≤ rest5.length := by
              rw [hr]; exact (List.dropWhile_sublist _).length_le
            simp only [List.length_cons]
            omega

/-- The env-assignment-stripping loop of `extractCommandName`, with an
explicit iteration bound (kept structural so the kernel can evaluate it). -/
def stripEnvGo : Nat → List Char → List Char
  | 0, cs => cs
  | n + 1, cs =>
    match matchEnvAssign cs with
    | some rest => stripEnvGo n rest
    | none => cs

/-- The env-assignment loop of `extractCommandName`.  Every iteration
removes at least one character (`matchEnvAssign_shrinks`), so `cs.length`
iterations always suffice and the fuel-exhausted branch is unreachable. -/
def stripEnvAssigns (cs : List Char) : List Char := stripEnvGo cs.length cs

/-- `extractCommandName(segment)` from `tools/guard.ts`. -/
def extractCommandName (segment : String) : String :=
  let t1 := jsTrimList segment.data
  let t2 := stripGroupChars t1
  let t3 := stripEnvAssigns t2
  let firstWord := t3.takeWhile (fun c => !jsWhitespace c)
  if firstWord.contains '/' then
    match (splitListOn '/' firstWord).getLast? with
    | some lastComp => if lastComp = [] then String.mk firstWord else String.mk lastComp
    | none => String.mk firstWord
  else String.mk firstWord

/-- The reason string `Command denied: '<cmd>' is not on the allowed commands
list`. -/
def deniedReason (cmd : String) : String :=
  "Command denied: " ++ sq ++ cmd ++ sq ++ " is not on the allowed commands list"

/-- The per-segment loop of `guardCommand` (the source binds
`cmd = extractCommandName(segment)` once; it is inlined here). -/
def checkSegments (allowedCommands : List String) : List String → GuardResult
  | [] => { allowed := true }
  | seg :: rest =>
    if extractCommandName seg = "" then checkSegments allowedCommands rest
    else if SHELL_BUILTINS.contains (extractCommandName seg) then
      checkSegments allowedCommands rest
    else if allowedCommands.contains (extractCommandName seg) then
      checkSegments allowedCommands rest
    else
      { allowed := false,
        reason := some (deniedReason (extractCommandName seg)) }

/-- `guardCommand(command)` from `tools/guard.ts`, with the module variable
`allowedCommands` made explicit (its default value is
`DEFAULT_ALLOWED_COMMANDS`). -/
def guardCommand (allowedCommands : List String) (command : String) : GuardResult :=
  match criticalCheck command with
  | some reason => { allowed := false, reason := some reason }
  | none => checkSegments allowedCommands (splitCommandSegments command)

/-- The per-segment denial of `guardCommand` as a partial function: `some
cmd` exactly when the segment's extracted command is nonempty and on neither
the builtins list nor the allowed list. -/
def segDenied (allowedCommands : List String) (seg : String) : Option String :=
  if extractCommandName seg = "" then none
  else if SHELL_BUILTINS.contains (extractCommandName seg) then none
  else if allowedCommands.contains (extractCommandName seg) then none
  else some (extractCommandName seg)

end Mother.Guard

namespace Mother

/-- Characters that the splitter treats as separators or blanks when no
quoting is active: `;`, `|`, space, tab, newline. -/
def sepOrBlank (c : Char) : Bool :=
  c = ';' || c = '|' || c = ' ' || c = chTab || c = chLF

/-- Blank characters (what remains inside the segments of a separator-only
command). -/
def blankChar (c : Char) : Bool := c = ' ' || c = chTab || c = chLF

end Mother

namespace Mother.Store

/-! ## `store.ts` — `ChannelStore`

`logMessage` keeps a dedup map `recentlyLogged : Map<string, number>` keyed
`"<channelId>:<ts>"`; an entry is inserted on a successful append and removed
by a `setTimeout` 60 000 ms later.  Wall time is an explicit `Nat`
(milliseconds); the timer firing is `expireDedup`. -/

/-- An `Attachment` of `store.ts`: original filename and local relative path
(the source field `local` is a Lean keyword, hence `localPath`). -/
structure Attach where
  original : String
  localPath : String
deriving DecidableEq, Repr

/-- A `LoggedMessage` of `store.ts` (one line of `log.jsonl`). -/
structure LoggedMessage where
  date : String
  ts : String
  user : String
  userName : Option String := none
  displayName : Option String := none
  text : String
  attachments : List Attach := []
  isBot : Bool
deriving DecidableEq, Repr

/-- The state of a `ChannelStore` that `logMessage` touches: the dedup map
(key, insertion time) and the accumulated `log.jsonl` lines of all channels
(in append order, tagged with their channel). -/
structure StoreState where
  recentlyLogged : List (String × Nat) := []
  logLines : List (String × LoggedMessage) := []
deriving DecidableEq, Repr

/-- The dedup key `` `${channelId}:${message.ts}` ``. -/
def dedupeKey (channelId ts : String) : String := channelId ++ ":" ++ ts

/-- `ChannelStore.logMessage(channelId, message)` from `store.ts` at wall
time `now`; `nowIso` stands for `new Date().toISOString()` used when the
message carries no date.  Returns the new state and the boolean result. -/
def logMessage (now : Nat) (nowIso : String) (st : StoreState) (channelId : String)
    (message : LoggedMessage) : StoreState × Bool :=
  if st.recentlyLogged.any (fun kv => kv.1 == dedupeKey channelId message.ts) then
    (st, false)
  else
    ({ recentlyLogged := (dedupeKey channelId message.ts, now) :: st.recentlyLogged,
       logLines := st.logLines ++
         [(channelId,
           if message.date = "" then { message with date := nowIso } else message)] },
      true)

/-- The `setTimeout(..., 60000)` cleanups that have fired by time `now`:
every key inserted 60 000 ms or more ago is gone. -/
def expireDedup (now : Nat) (st : StoreState) : StoreState :=
  { st with recentlyLogged := st.recentlyLogged.filter (fun kv => now < kv.2 + 60000) }

end Mother.Store

namespace Mother.Discord

open Mother Store

/-! ## `discord.ts` — queueing, direct logging and inbound routing -/

/-- A normalized inbound `DiscordEvent` (the fields the modelled paths use). -/
structure DiscordEvent where
  channel : String
  ts : String
  user : String
  text : String
deriving DecidableEq, Repr

/-- `ChannelQueue.enqueue(work)` from `discord.ts`: an unconditional append.
Work items are abstract identifiers. -/
def channelQueueEnqueue (queue : List Nat) (work : Nat) : List Nat := queue ++ [work]

/-- `DiscordBot.enqueueEvent(event)` from `discord.ts`: drops (with a warning
log) when the queue already holds 5 or more items, otherwise enqueues.
Returns the new queue and the boolean result. -/
def enqueueEvent (queue : List Nat) (work : Nat) : List Nat × Bool :=
  if 5 ≤ queue.length then (queue, false)
  else (channelQueueEnqueue queue work, true)

/-- `DiscordBot.logToFile(channel, entry)` from `discord.ts`: an unconditional
`appendFileSync` to the channel's `log.jsonl`. -/
def logToFile (lines : List (String × LoggedMessage)) (channel : String)
    (entry : LoggedMessage) : List (String × LoggedMessage) :=
  lines ++ [(channel, entry)]

/-- `DiscordBot.logUserMessage(event)` from `discord.ts` restricted to events
without file attachments.  `dateOfTs` stands for
`new Date(Number(BigInt(event.ts) >> 22n) + 1420070400000).toISOString()`
(the snowflake-decoded date) and `userOf` for the `this.users` lookup;
neither affects which lines are appended. -/
def logUserMessage (dateOfTs : String → String)
    (userOf : String → Option (String × String))
    (lines : List (String × LoggedMessage)) (event : DiscordEvent) :
    List (String × LoggedMessage) :=
  logToFile lines event.channel
    { date := dateOfTs event.ts
      ts := event.ts
      user := event.user
      userName := (userOf event.user).map (fun u => u.1)
      displayName := (userOf event.user).map (fun u => u.2)
      text := event.text
      attachments := []
      isBot := false }

/-- ASCII lowercasing, the fragment of JavaScript `toLowerCase` relevant to
the `"stop"` comparison. -/
def jsToLowerChar (c : Char) : Char :=
  if 'A' ≤ c ∧ c ≤ 'Z' then Char.ofNat (c.toNat + 32) else c

/-- `s.toLowerCase()` (ASCII fragment). -/
def jsToLower (s : String) : String := String.mk (s.data.map jsToLowerChar)

/-- The stop test of `setupEventHandlers`:
`discordEvent.text.toLowerCase().trim() === "stop"`. -/
def isStopText (text : String) : Bool := jsTrim (jsToLower text) == "stop"

/-- The per-channel `ChannelState` of `main.ts` (the fields the stop protocol
uses).  `stopMessage` holds the Discord message handle of the
`*Stopping...*` post. -/
structure ChanState where
  running : Bool := false
  stopRequested : Bool := false
  stopMessage : Option Nat := none
deriving DecidableEq, Repr

/-- `handler.handleStop(channelId, bot)` from `main.ts`: new state, posted
texts, and whether `state.runner.abort()` was called.  `newMsgId` is the
handle Discord assigns to the posted message. -/
def handleStop (st : ChanState) (newMsgId : Nat) : ChanState × List String × Bool :=
  if st.running then
    ({ st with stopRequested := true, stopMessage := some newMsgId },
      ["*Stopping...*"], true)
  else (st, ["*Nothing running*"], false)

/-- The stop branch of `setupEventHandlers` in `discord.ts`: when the inbound
text passes `isStopText`, either `handler.handleStop(...)` (run active) or a
direct `"_Nothing running_"` post; `none` when the text is not a stop
command (the handler falls through to routing). -/
def onInboundStop (text : String) (st : ChanState) (newMsgId : Nat) :
    Option (ChanState × List String × Bool) :=
  if isStopText text then
    some (if st.running then handleStop st newMsgId
          else (st, ["_Nothing running_"], false))
  else none

/-- The non-stop routing tail of `setupEventHandlers`: when a run is active
post the busy notice, otherwise enqueue the work item directly on the
channel queue (`this.getQueue(...).enqueue(...)` — no size check). -/
def routeInbound (isDM : Bool) (running : Bool) (queue : List Nat) (work : Nat) :
    List Nat × Option String :=
  if running then
    (queue, some ("_Already working. Say " ++
      (if isDM then "`stop`" else "`@mother stop`") ++ " to cancel._"))
  else (channelQueueEnqueue queue work, none)

/-- The `result.stopReason === "aborted" && state.stopRequested` epilogue of
`handler.handleEvent` in `main.ts`: returns the new state, edits applied to
existing messages `(handle, newText)`, and fresh posts. -/
def afterRunStopCheck (st : ChanState) (stopReason : String) :
    ChanState × List (Nat × String) × List String :=
  if stopReason = "aborted" ∧ st.stopRequested then
    match st.stopMessage with
    | some m => ({ st with stopMessage := none }, [(m, "*Stopped*")], [])
    | none => (st, [], ["*Stopped*"])
  else (st, [], [])

/-- The message handles owned by one run's `createDiscordContext` closure in
`main.ts`: the main (working) message and the thread messages in post order. -/
structure RunMessages where
  mainMessage : Option Nat := none
  threadMessages : List Nat := []
deriving DecidableEq, Repr

/-- `createDiscordContext(...).deleteMessage` from `main.ts`: delete the
thread messages in reverse order, then the main message.  Returns the new
state and the deletion sequence (oldest deletion first). -/
def deleteMessageCtx (st : RunMessages) : RunMessages × List Nat :=
  ({ mainMessage := none, threadMessages := [] },
    st.threadMessages.reverse ++ st.mainMessage.toList)

end Mother.Discord

namespace Mother.Agent

open Mother Discord

/-! ## `agent.ts` — context trimming and the `[SILENT]` finalization -/

/-- A content part of a transcript message (`text` parts and everything
else, which `trimContextByTurns` ignores). -/
inductive CPart where
  | text : String → CPart
  | other : CPart
deriving DecidableEq, Repr

/-- The content of an `AgentMessage`: a plain string or a part array. -/
inductive MsgContent where
  | str : String → MsgContent
  | parts : List CPart → MsgContent
deriving DecidableEq, Repr

/-- Message roles. -/
inductive Role where
  | user
  | assistant
  | toolResult
deriving DecidableEq, Repr

/-- An `AgentMessage` as `trimContextByTurns` sees it. -/
structure AgentMessage where
  role : Role
  content : MsgContent
  timestamp : Nat := 0
deriving DecidableEq, Repr

/-- The turn-splitting loop of `trimContextByTurns`: a new turn starts at
every `user` message (except when the current turn is still empty). -/
def turnsAux : List AgentMessage → List AgentMessage → List (List AgentMessage) →
    List (List AgentMessage)
  | [], currentTurn, turns =>
    if currentTurn.isEmpty then turns else turns ++ [currentTurn]
  | msg :: rest, currentTurn, turns =>
    if msg.role = .user ∧ ¬currentTurn.isEmpty then
      turnsAux rest [msg] (turns ++ [currentTurn])
    else turnsAux rest (currentTurn ++ [msg]) turns

/-- The turns of a transcript. -/
def turnsOf (messages : List AgentMessage) : List (List AgentMessage) :=
  turnsAux messages [] []

/-- The text of a message content: the string itself, or the `text` parts
joined with a space. -/
def contentText : MsgContent → String
  | .str s => s
  | .parts ps =>
    " ".intercalate (ps.filterMap (fun p => match p with | .text s => some s | .other => none))

/-- Consume exactly `n` decimal digits. -/
def takeDigits : Nat → List Char → Option (List Char)
  | 0, cs => some cs
  | n + 1, c :: cs => if c.isDigit then takeDigits n cs else none
  | _ + 1, [] => none

/-- Consume one expected character. -/
def takeLit (c : Char) : List Char → Option (List Char)
  | d :: cs => if d = c then some cs else none
  | [] => none

/-- Consume a `[+-]` sign. -/
def takeSign : List Char → Option (List Char)
  | c :: rest => if c = '+' ∨ c = '-' then some rest else none
  | [] => none

/-- Consume the greedy `[^\]]+` run (deterministic: `]` cannot occur inside
it, so the greedy match is the only one). -/
def takeName (cs : List Char) : Option (List Char) :=
  if (cs.takeWhile (fun c => c ≠ ']')).isEmpty then none
  else some (cs.dropWhile (fun c => c ≠ ']'))

/-- Run a list of consumers in sequence. -/
def pSeq (ps : List (List Char → Option (List Char))) (cs : List Char) :
    Option (List Char) :=
  ps.foldl (fun acc p => acc.bind p) (some cs)

/-- The header regex of `trimContextByTurns`,
`^\[\d{4}-\d{2}-\d{2} \d{2}:\d{2}:\d{2}[+-]\d{2}:\d{2}\] \[[^\]]+\]: `,
as an anchored parser returning the remainder on a match. -/
def matchHeader (cs : List Char) : Option (List Char) :=
  pSeq [takeLit '[', takeDigits 4, takeLit '-', takeDigits 2, takeLit '-',
    takeDigits 2, takeLit ' ', takeDigits 2, takeLit ':', takeDigits 2,
    takeLit ':', takeDigits 2, takeSign, takeDigits 2, takeLit ':',
    takeDigits 2, takeLit ']', takeLit ' ', takeLit '[', takeName,
    takeLit ']', takeLit ':', takeLit ' '] cs

/-- `text.replace(headerRegex, "")`: strip the header when present. -/
def stripHeader (text : String) : String :=
  match matchHeader text.data with
  | some rest => String.mk rest
  | none => text

/-- The summary sampling of `trimContextByTurns`:
`text.length > 100 ? text.substring(0, 100) + "..." : text`. -/
def mkSummary (text : String) : String :=
  if 100 < text.data.length then String.mk (text.data.take 100) ++ "..." else text

/-- The summary extracted from the last dropped turn: the first user
message's text, header-stripped and sampled; `""` when the turn has no user
message. -/
def turnSummary (turn : List AgentMessage) : String :=
  match turn.find? (fun m => m.role = .user) with
  | some m => mkSummary (stripHeader (contentText m.content))
  | none => ""

/-- `trimContextByTurns(messages, channelId)` from `agent.ts`.  `MAX_TURNS`
is 10.  `now` stands for the `Date.now()` fallback used when the kept list
is empty.  Returns `(messages, droppedTurns, summary)`. -/
def trimContextByTurns (now : Nat) (messages : List AgentMessage) :
    List AgentMessage × Nat × String :=
  let turns := turnsOf messages
  if turns.length ≤ 10 then (messages, 0, "")
  else
    let droppedTurns := turns.length - 10
    let keptTurns := turns.drop droppedTurns
    let summary := turnSummary (turns.getD (droppedTurns - 1) [])
    let kept := keptTurns.flatten
    if summary ≠ "" then
      let ts0 := match kept.head? with | some m => m.timestamp | none => now
      ({ role := .user,
         content := .str ("[Prior context trimmed. Last topic before trim: " ++ summary ++ "]"),
         timestamp := ts0 } :: kept, droppedTurns, summary)
    else (kept, droppedTurns, summary)

/-- The `[SILENT]` test on the final assistant text in `run` (`agent.ts`):
`finalText.trim() === "[SILENT]" || finalText.trim().startsWith("[SILENT]")`. -/
def silentCheck (finalText : String) : Bool :=
  jsTrim finalText == "[SILENT]" || "[SILENT]".isPrefixOf (jsTrim finalText)

/-- The non-error finalization branch of `run` (`agent.ts`), reduced to its
effect on the run's Discord messages: on a `[SILENT]` final text the context's
`deleteMessage` runs; otherwise the main message is replaced (no deletions).
Returns the surviving messages and the deletion sequence. -/
def finalizeRun (finalText : String) (st : RunMessages) : RunMessages × List Nat :=
  if silentCheck finalText then deleteMessageCtx st
  else (st, [])

end Mother.Agent

namespace Mother

/-! Sanity checks of the path model against `guard.test.ts`. -/

example :
    Guard.guardPath (Guard.initPathGuard "/home/mother/workspace" none)
      "MEMORY.md" "/home/mother/workspace" =
    { allowed := true, resolvedPath := some "/home/mother/workspace/MEMORY.md" } := by
  decide

example :
    (Guard.guardPath (Guard.initPathGuard "/home/mother/workspace" none)
      "/home/mother/workspace/../../etc/passwd" "/home/mother/workspace").allowed = false := by
  decide

example :
    (Guard.guardPath (Guard.initPathGuard "/home/mother/workspace" none)
      "/tmp/output.log" "/home/mother/workspace").allowed = true := by
  decide

example :
    (Guard.guardPath (Guard.initPathGuard "/home/mother/workspace" none)
      "/home/mother/workspace" "/home/mother/workspace").allowed = true := by
  decide

example :
    (Guard.guardPath (Guard.initPathGuard "/home/mother/workspace" (some ["/opt/data"]))
      "/opt/data/file.csv" "/home/mother/workspace").allowed = true := by
  decide

end Mother

namespace Mother

/-- Does `needle` occur as a contiguous sublist of `hay`? -/
def subOccurs : List Char → List Char → Bool
  | hay, needle =>
    List.isPrefixOf needle hay ||
      match hay with
      | [] => false
      | _ :: t => subOccurs t needle

/-- Substring containment, JavaScript `hay.includes(needle)`. -/
def strContains (hay needle : String) : Bool := subOccurs hay.data needle.data

/-! ## Claim theorems -/

/-- Claim C1: with the path guard initialized from `(workspaceDir, extras)`,
`guardPath` resolves the input against the given directory and normalizes it,
and allows exactly when the resolved path equals some registered prefix or
starts with that prefix followed by `/`; a rejection reason names both the
input and the resolved path; in particular the sibling path
`/home/mother/workspace-evil/x` is rejected with a reason containing
`outside allowed`.  (The hypothesis pins the domain on which the embedded
`resolve` agrees with Node's: an absolute base directory.) -/
theorem c1_guardPath_prefix_check (workspaceDir : String)
    (extraPaths : Option (List String)) (inputPath cwd : String)
    (habs : cwd.data.head? = some '/') :
    ((Guard.guardPath (Guard.initPathGuard workspaceDir extraPaths) inputPath
        cwd).allowed = true ↔
      ∃ p ∈ Guard.initPathGuard workspaceDir extraPaths,
        NodePath.normalize (NodePath.resolve cwd inputPath) = p ∨
        List.isPrefixOf (p ++ "/").data
          (NodePath.normalize (NodePath.resolve cwd inputPath)).data = true) ∧
    ((Guard.guardPath (Guard.initPathGuard workspaceDir extraPaths) inputPath
        cwd).allowed = false →
      (Guard.guardPath (Guard.initPathGuard workspaceDir extraPaths) inputPath
          cwd).reason =
        some ("Path denied: " ++ inputPath ++ " (resolved: "
          ++ NodePath.normalize (NodePath.resolve cwd inputPath)
          ++ ") is outside allowed directories")) ∧
    (Guard.guardPath (Guard.initPathGuard "/home/mother/workspace" none)
      "/home/mother/workspace-evil/x" "/home/mother/workspace").allowed = false ∧
    strContains
      ((Guard.guardPath (Guard.initPathGuard "/home/mother/workspace" none)
        "/home/mother/workspace-evil/x" "/home/mother/workspace").reason.getD "")
      "outside allowed" = true := by
  have hne : ¬((Guard.initPathGuard workspaceDir extraPaths).isEmpty = true) := by
    intro hcontra
    exact Bool.noConfusion hcontra
  refine ⟨?_, ?_, by decide, by decide⟩
  · unfold Guard.guardPath
    rw [if_neg hne]
    split
    case isTrue h =>
      constructor
      · intro _
        rcases List.any_eq_true.mp h with ⟨p, hp, hcond⟩
        refine ⟨p, hp, ?_⟩
        simpa using hcond
      · intro _; rfl
    case isFalse h =>
      constructor
      · intro hfalse; exact Bool.noConfusion hfalse
      · rintro ⟨p, hp, hcase⟩
        refine absurd (List.any_eq_true.mpr ⟨p, hp, ?_⟩) h
        simpa using hcase
  · unfold Guard.guardPath
    rw [if_neg hne]
    split
    case isTrue h => intro hfalse; exact Bool.noConfusion hfalse
    case isFalse h => intro _; rfl

/-- Witness for C1 at a concrete absolute workspace directory. -/
theorem c1_guardPath_prefix_check_w :
    (Guard.guardPath (Guard.initPathGuard "/home/mother/workspace" none)
        "/etc/passwd" "/home/mother/workspace").allowed = true ↔
      ∃ p ∈ Guard.initPathGuard "/home/mother/workspace" none,
        NodePath.normalize
            (NodePath.resolve "/home/mother/workspace" "/etc/passwd") = p ∨
        List.isPrefixOf (p ++ "/").data
          (NodePath.normalize
            (NodePath.resolve "/home/mother/workspace" "/etc/passwd")).data
          = true :=
  (c1_guardPath_prefix_check "/home/mother/workspace" none "/etc/passwd"
    "/home/mother/workspace" (by decide)).1

/-- Claim C2: every command on which a critical pattern tests positive is
rejected by `guardCommand` with that pattern's reason, even though `rm` is
on the default allowed list; the `rm` reasons contain `rm -rf` and the
fork-bomb reason contains `fork bomb`; the four literal spec examples all
test positive. -/
theorem c2_critical_patterns_block :
    "rm" ∈ Guard.DEFAULT_ALLOWED_COMMANDS ∧
    (∀ command reason : String, Guard.criticalCheck command = some reason →
      Guard.guardCommand Guard.DEFAULT_ALLOWED_COMMANDS command =
        { allowed := false, reason := some reason } ∧
      (reason = "Blocked: rm -rf /" ∨ reason = "Blocked: fork bomb")) ∧
    Guard.criticalCheck "rm -rf /" = some "Blocked: rm -rf /" ∧
    Guard.criticalCheck "rm -rf /*" = some "Blocked: rm -rf /" ∧
    Guard.criticalCheck "rm -f -r /" = some "Blocked: rm -rf /" ∧
    Guard.criticalCheck
        (":()" ++ String.singleton chLB ++ " :|:& " ++ String.singleton chRB ++ ";:")
      = some "Blocked: fork bomb" ∧
    strContains "Blocked: rm -rf /" "rm -rf" = true ∧
    strContains "Blocked: fork bomb" "fork bomb" = true := by
  refine ⟨by decide, ?_, by decide, by decide, by decide, by decide, by decide, by decide⟩
  intro command reason h
  constructor
  · unfold Guard.guardCommand
    rw [h]
  · unfold Guard.criticalCheck at h
    rcases Option.map_eq_some'.mp h with ⟨t, hf, rfl⟩
    have ht := List.mem_of_find?_eq_some hf
    simp only [Guard.CRITICAL_PATTERNS, List.mem_cons, List.not_mem_nil,
      or_false] at ht
    rcases ht with rfl | rfl | rfl
    · exact Or.inl rfl
    · exact Or.inl rfl
    · exact Or.inr rfl

/-- Witness for C2: the concrete critical command `rm -rf /` is rejected by
`guardCommand` with the pattern's reason. -/
theorem c2_critical_patterns_block_w :
    Guard.guardCommand Guard.DEFAULT_ALLOWED_COMMANDS "rm -rf /" =
      { allowed := false, reason := some "Blocked: rm -rf /" } ∧
    ("Blocked: rm -rf /" = "Blocked: rm -rf /" ∨
      "Blocked: rm -rf /" = "Blocked: fork bomb") :=
  c2_critical_patterns_block.2.1 "rm -rf /" "Blocked: rm -rf /" (by decide)

/-- The segment loop of `guardCommand` denies exactly the first segment whose
extracted command is nonempty and on neither list. -/
theorem checkSegments_eq_findSome (allowedCommands : List String) :
    ∀ segs : List String,
      Guard.checkSegments allowedCommands segs =
        match segs.findSome? (Guard.segDenied allowedCommands) with
        | none => { allowed := true }
        | some cmd =>
          { allowed := false, reason := some (Guard.deniedReason cmd) } := by
  intro segs
  induction segs with
  | nil => rfl
  | cons seg rest ih =>
    rw [List.findSome?_cons]
    by_cases h1 : Guard.extractCommandName seg = ""
    · unfold Guard.checkSegments Guard.segDenied
      rw [if_pos h1, if_pos h1]
      exact ih
    · by_cases h2 : Guard.SHELL_BUILTINS.contains (Guard.extractCommandName seg) = true
      · unfold Guard.checkSegments Guard.segDenied
        rw [if_neg h1, if_pos h2, if_neg h1, if_pos h2]
        exact ih
      · by_cases h3 :
            allowedCommands.contains (Guard.extractCommandName seg) = true
        · unfold Guard.checkSegments Guard.segDenied
          rw [if_neg h1, if_neg h2, if_pos h3, if_neg h1, if_neg h2, if_pos h3]
          exact ih
        · unfold Guard.checkSegments Guard.segDenied
          rw [if_neg h1, if_neg h2, if_neg h3, if_neg h1, if_neg h2, if_neg h3]

/-- Claim C3, counterexample: for `rm -rf /` every (single) segment's program
(`rm`) is on the allowed list, yet `guardCommand` rejects — the claimed
"allowed iff every segment's program is allowed" biconditional omits the
critical-pattern check. -/
theorem c3_counterexample :
    (∀ seg ∈ Guard.splitCommandSegments "rm -rf /",
      Guard.extractCommandName seg = "" ∨
      Guard.SHELL_BUILTINS.contains (Guard.extractCommandName seg) = true ∨
      Guard.DEFAULT_ALLOWED_COMMANDS.contains (Guard.extractCommandName seg)
        = true) ∧
    (Guard.guardCommand Guard.DEFAULT_ALLOWED_COMMANDS "rm -rf /").allowed
      = false := by
  decide

/-- Claim C3, amended: *provided no critical pattern matches the command*,
`guardCommand` splits it into segments (honoring quotes and escapes),
extracts each segment's program name, and allows iff every non-empty
segment's program is on the allowed list or the builtins set, otherwise
denying the first offending segment with
`Command denied: '<cmd>' is not on the allowed commands list`; in
particular `cat f | sudo tee /etc/passwd` is denied with a reason containing
`sudo`. -/
theorem c3_guardCommand_segments (allowedCommands : List String)
    (command : String) (hcrit : Guard.criticalCheck command = none) :
    Guard.guardCommand allowedCommands command =
      (match (Guard.splitCommandSegments command).findSome?
          (Guard.segDenied allowedCommands) with
        | none => { allowed := true }
        | some cmd =>
          { allowed := false, reason := some (Guard.deniedReason cmd) }) ∧
    ((Guard.guardCommand allowedCommands command).allowed = true ↔
      ∀ seg ∈ Guard.splitCommandSegments command,
        Guard.segDenied allowedCommands seg = none) ∧
    Guard.guardCommand Guard.DEFAULT_ALLOWED_COMMANDS
        "cat f | sudo tee /etc/passwd" =
      { allowed := false, reason := some (Guard.deniedReason "sudo") } ∧
    strContains (Guard.deniedReason "sudo") "sudo" = true := by
  have hmain : Guard.guardCommand allowedCommands command =
      (match (Guard.splitCommandSegments command).findSome?
          (Guard.segDenied allowedCommands) with
        | none => { allowed := true }
        | some cmd =>
          { allowed := false, reason := some (Guard.deniedReason cmd) }) := by
    unfold Guard.guardCommand
    rw [hcrit]
    exact checkSegments_eq_findSome allowedCommands _
  refine ⟨hmain, ?_, by decide, by decide⟩
  rw [hmain]
  cases hfind : (Guard.splitCommandSegments command).findSome?
      (Guard.segDenied allowedCommands) with
  | none =>
    simp only [hfind]
    constructor
    · intro _
      exact List.findSome?_eq_none_iff.mp hfind
    · intro _; trivial
  | some cmd =>
    simp only [hfind]
    constructor
    · intro hfalse; exact Bool.noConfusion hfalse
    · intro hall
      have hnone : (Guard.splitCommandSegments command).findSome?
          (Guard.segDenied allowedCommands) = none :=
        List.findSome?_eq_none_iff.mpr hall
      rw [hfind] at hnone
      cases hnone

/-- Witness for C3 (amended) at a concrete pipeline with a denied program. -/
theorem c3_guardCommand_segments_w :
    Guard.guardCommand Guard.DEFAULT_ALLOWED_COMMANDS
        "cat f | sudo tee /etc/passwd" =
      (match (Guard.splitCommandSegments "cat f | sudo tee /etc/passwd").findSome?
          (Guard.segDenied Guard.DEFAULT_ALLOWED_COMMANDS) with
        | none => { allowed := true }
        | some cmd =>
          { allowed := false, reason := some (Guard.deniedReason cmd) }) :=
  (c3_guardCommand_segments Guard.DEFAULT_ALLOWED_COMMANDS
    "cat f | sudo tee /etc/passwd" (by decide)).1

/-- Claim C9: with the path guard never initialized (empty allowed-prefix
list), `guardPath` allows every input — including `/etc/shadow` — returning
the raw input as `resolvedPath`, neither resolved against the workspace
directory nor normalized. -/
theorem c9_uninitialized_guard_allows_all :
    (∀ inputPath workspaceDir : String,
      Guard.guardPath [] inputPath workspaceDir =
        { allowed := true, reason := none, resolvedPath := some inputPath }) ∧
    Guard.guardPath [] "/etc/shadow" "/home/mother/workspace" =
      { allowed := true, reason := none, resolvedPath := some "/etc/shadow" } ∧
    Guard.guardPath [] "/etc/../etc/shadow" "/home/mother/workspace" =
      { allowed := true, reason := none, resolvedPath := some "/etc/../etc/shadow" } :=
  ⟨fun _ _ => rfl, rfl, rfl⟩

/-- Claim C6: a final assistant text that is exactly `[SILENT]` (after
trimming) passes `silentCheck`; the finalization then runs the context's
`deleteMessage`, which leaves no main message and no thread messages and
deletes the thread messages (in reverse order) before the main message. -/
theorem c6_silent_deletes_all_messages (finalText : String)
    (st : Discord.RunMessages) (h : jsTrim finalText = "[SILENT]") :
    Agent.silentCheck finalText = true ∧
    (Agent.finalizeRun finalText st).1 =
      { mainMessage := none, threadMessages := [] } ∧
    (Agent.finalizeRun finalText st).2 =
      st.threadMessages.reverse ++ st.mainMessage.toList := by
  have hs : Agent.silentCheck finalText = true := by
    simp [Agent.silentCheck, h]
  refine ⟨hs, ?_, ?_⟩ <;>
    simp [Agent.finalizeRun, hs, Discord.deleteMessageCtx]

/-- Witness for C6 at a concrete run state. -/
theorem c6_silent_deletes_all_messages_w :
    Agent.silentCheck " [SILENT] " = true ∧
    (Agent.finalizeRun " [SILENT] "
      { mainMessage := some 7, threadMessages := [1, 2, 3] }).1 =
      { mainMessage := none, threadMessages := [] } ∧
    (Agent.finalizeRun " [SILENT] "
      { mainMessage := some 7, threadMessages := [1, 2, 3] }).2 =
      ([1, 2, 3] : List Nat).reverse ++ (some 7).toList :=
  c6_silent_deletes_all_messages " [SILENT] "
    { mainMessage := some 7, threadMessages := [1, 2, 3] } (by decide)

/-- Claim C7, counterexample: with 5 items already pending, an inbound chat
message is still enqueued by `setupEventHandlers` (it calls
`ChannelQueue.enqueue` directly, with no size check), so the cap is not
applied to inbound chat messages. -/
theorem c7_counterexample :
    5 ≤ ([0, 1, 2, 3, 4] : List Nat).length ∧
    Discord.routeInbound false false [0, 1, 2, 3, 4] 9 =
      ([0, 1, 2, 3, 4, 9], none) := by
  decide

/-- Claim C7, amended: the 5-item cap is applied by `enqueueEvent` (the
scheduler's entry point), which drops the item and returns `false` when the
queue holds 5 or more items; inbound chat messages bypass the cap — when no
run is active they are enqueued unconditionally. -/
theorem c7_queue_cap (queue : List Nat) (work : Nat) :
    (5 ≤ queue.length → Discord.enqueueEvent queue work = (queue, false)) ∧
    (queue.length < 5 →
      Discord.enqueueEvent queue work = (queue ++ [work], true)) ∧
    (∀ isDM : Bool,
      Discord.routeInbound isDM false queue work = (queue ++ [work], none)) := by
  refine ⟨fun h => ?_, fun h => ?_, fun isDM => ?_⟩
  · simp [Discord.enqueueEvent, h]
  · simp [Discord.enqueueEvent, Nat.not_le.mpr h, Discord.channelQueueEnqueue]
  · simp [Discord.routeInbound, Discord.channelQueueEnqueue]

/-- Witness for C7 (amended) at a full queue and at a non-full queue. -/
theorem c7_queue_cap_w :
    Discord.enqueueEvent [0, 1, 2, 3, 4] 9 = ([0, 1, 2, 3, 4], false) ∧
    Discord.enqueueEvent [0] 9 = ([0, 9], true) :=
  ⟨(c7_queue_cap [0, 1, 2, 3, 4] 9).1 (by decide),
   (c7_queue_cap [0] 9).2.1 (by decide)⟩

/-- Claim C8, counterexample: an inbound `"stop"` while nothing is running
posts the literal `_Nothing running_` (underscore italics), not
`*Nothing running*`. -/
theorem c8_counterexample :
    Discord.isStopText "stop" = true ∧
    Discord.onInboundStop "stop" { running := false } 0 =
      some ({ running := false, stopRequested := false, stopMessage := none },
        ["_Nothing running_"], false) ∧
    "_Nothing running_" ≠ "*Nothing running*" := by
  decide

/-- Claim C8, amended: on an inbound message whose lowercased, trimmed text
is `"stop"`: with a run active the runner is aborted, exactly one
`*Stopping...*` message is posted and recorded as the stop message; with no
run active a single `_Nothing running_` message is posted.  When the aborted
run later ends with `stopReason = "aborted"` while the stop was requested,
the recorded stop message is edited to `*Stopped*`. -/
theorem c8_stop_protocol (text : String) (st : Discord.ChanState) (msgId : Nat)
    (h : Discord.isStopText text = true) :
    (st.running = true →
      Discord.onInboundStop text st msgId =
        some ({ st with stopRequested := true, stopMessage := some msgId },
          ["*Stopping...*"], true)) ∧
    (st.running = false →
      Discord.onInboundStop text st msgId =
        some (st, ["_Nothing running_"], false)) ∧
    (∀ m : Nat, st.stopMessage = some m → st.stopRequested = true →
      Discord.afterRunStopCheck st "aborted" =
        ({ st with stopMessage := none }, [(m, "*Stopped*")], [])) := by
  refine ⟨fun hr => ?_, fun hr => ?_, fun m hm hreq => ?_⟩
  · simp [Discord.onInboundStop, h, hr, Discord.handleStop]
  · simp [Discord.onInboundStop, h, hr]
  · simp [Discord.afterRunStopCheck, hreq, hm]

/-- Witness for C8 (amended): a concrete stop of an active run followed by
the post-run `*Stopped*` edit. -/
theorem c8_stop_protocol_w :
    (Discord.onInboundStop " Stop " { running := true } 42 =
      some ({ running := true, stopRequested := true, stopMessage := some 42 },
        ["*Stopping...*"], true)) ∧
    (Discord.afterRunStopCheck
        { running := true, stopRequested := true, stopMessage := some 42 }
        "aborted" =
      ({ running := true, stopRequested := true, stopMessage := none },
        [(42, "*Stopped*")], [])) :=
  ⟨(c8_stop_protocol " Stop " { running := true } 42 (by decide)).1 rfl,
   (c8_stop_protocol " Stop "
      { running := true, stopRequested := true, stopMessage := some 42 } 42
      (by decide)).2.2 42 rfl rfl⟩

/-- Claim C4, counterexample: the inbound-Discord logging path
(`DiscordBot.logUserMessage`, which writes through `logToFile`) appends
unconditionally — logging the same `(channelId, ts)` message twice appends
two `log.jsonl` lines, with no dedup at all. -/
theorem c4_counterexample :
    Discord.logUserMessage (fun _ => "2024-01-01T00:00:00.000Z") (fun _ => none)
      (Discord.logUserMessage (fun _ => "2024-01-01T00:00:00.000Z") (fun _ => none)
        [] { channel := "C1", ts := "111222333", user := "U1", text := "hi" })
      { channel := "C1", ts := "111222333", user := "U1", text := "hi" } =
    [("C1", { date := "2024-01-01T00:00:00.000Z", ts := "111222333", user := "U1",
              text := "hi", isBot := false }),
     ("C1", { date := "2024-01-01T00:00:00.000Z", ts := "111222333", user := "U1",
              text := "hi", isBot := false })] := by
  decide

/-- Claim C4, amended: the 60-second `(channelId, ts)` dedup holds for
writes that go through `ChannelStore.logMessage`: after a successful append
at time `t1`, a second `logMessage` with the same channel and `ts` at any
time `t2 < t1 + 60000` (dedup timer not yet fired) returns `false` and
appends nothing.  The inbound-Discord logging path (`logUserMessage` /
`logToFile`) does not use `logMessage` and has no dedup. -/
theorem c4_logMessage_dedup (st st1 : Store.StoreState) (channelId : String)
    (message : Store.LoggedMessage) (t1 t2 : Nat) (iso1 iso2 : String)
    (h1 : Store.logMessage t1 iso1 st channelId message = (st1, true))
    (h2 : t2 < t1 + 60000) :
    (Store.logMessage t2 iso2 (Store.expireDedup t2 st1) channelId message).2
      = false ∧
    (Store.logMessage t2 iso2 (Store.expireDedup t2 st1) channelId message).1.logLines
      = st1.logLines ∧
    st1.logLines = st.logLines ++
      [(channelId,
        if message.date = "" then { message with date := iso1 } else message)] := by
  unfold Store.logMessage at h1
  split at h1
  case isTrue => exact absurd (congrArg Prod.snd h1) (by simp)
  case isFalse hnone =>
    injection h1 with h1a h1b
    subst h1a
    refine ⟨?_, ?_, rfl⟩ <;>
      simp [Store.logMessage, Store.expireDedup, List.filter_cons, h2]

/-- `matchRE` on a pattern that begins with a literal character fails on any
string over the separator/blank alphabet. -/
theorem searchFrom_char_head_false (needsB : Bool) (c0 : Char) (r : Regex.RE)
    (hc0 : sepOrBlank c0 = false) :
    ∀ (cs : List Char) (prev : Option Char),
      (∀ c ∈ cs, sepOrBlank c = true) →
      Regex.searchFrom needsB (Regex.RE.seq (Regex.RE.char c0) r) prev cs
        = false := by
  intro cs
  induction cs with
  | nil =>
    intro prev _
    simp [Regex.searchFrom, Regex.matchRE]
  | cons c rest ih =>
    intro prev hcs
    have hc : sepOrBlank c = true := hcs c (List.mem_cons_self _ _)
    have hne : c0 ≠ c := by
      intro he
      rw [he, hc] at hc0
      exact Bool.noConfusion hc0
    unfold Regex.searchFrom
    have hm : Regex.matchRE (Regex.RE.seq (Regex.RE.char c0) r) (c :: rest)
        (fun _ => true) = false := by
      simp [Regex.matchRE, hne]
    rw [hm]
    simp only [Bool.and_false, Bool.false_or]
    exact ih (some c) (fun d hd => hcs d (List.mem_cons_of_mem _ hd))

/-- `reTest` fails on separator/blank-only strings for any pattern whose
first atom is a literal character outside that alphabet. -/
theorem reTest_char_head_false (needsB : Bool) (re : Regex.RE) (c0 : Char)
    (r : Regex.RE) (hre : re = Regex.RE.seq (Regex.RE.char c0) r)
    (hc0 : sepOrBlank c0 = false) (command : String)
    (h : ∀ c ∈ command.data, sepOrBlank c = true) :
    Regex.reTest needsB re command = false := by
  subst hre
  exact searchFrom_char_head_false needsB c0 r hc0 command.data none h

/-- No critical pattern tests positive on a separator/blank-only command:
the `rm` patterns open with the letter `r`, the fork bomb with `:`. -/
theorem criticalCheck_sep_none (command : String)
    (h : ∀ c ∈ command.data, sepOrBlank c = true) :
    Guard.criticalCheck command = none := by
  have h1 : Regex.reTest true Guard.rmPatFR command = false :=
    reTest_char_head_false true Guard.rmPatFR 'r' _ rfl (by decide) command h
  have h2 : Regex.reTest true Guard.rmPatRF command = false :=
    reTest_char_head_false true Guard.rmPatRF 'r' _ rfl (by decide) command h
  have h3 : Regex.reTest false Guard.forkBombPat command = false :=
    reTest_char_head_false false Guard.forkBombPat ':' _ rfl (by decide) command h
  simp [Guard.criticalCheck, Guard.CRITICAL_PATTERNS, List.find?, h1, h2, h3]

/-- Blank characters are JavaScript whitespace. -/
theorem blankChar_jsWhitespace {c : Char} (h : blankChar c = true) :
    jsWhitespace c = true := by
  have hcase : c = ' ' ∨ c = chTab ∨ c = chLF := by
    simpa [blankChar, or_assoc] using h
  rcases hcase with rfl | rfl | rfl <;> decide

/-- A blank-only character list trims to nothing. -/
theorem jsTrimList_of_blank {cs : List Char}
    (h : ∀ c ∈ cs, blankChar c = true) : jsTrimList cs = [] := by
  have hd : cs.dropWhile jsWhitespace = [] :=
    List.dropWhile_eq_nil_iff.mpr (fun c hc => blankChar_jsWhitespace (h c hc))
  simp [jsTrimList, hd]

/-- The splitter finalization preserves blank-only segments. -/
theorem splitFin_blank (cur : List Char) (acc : List String)
    (hcur : ∀ c ∈ cur, blankChar c = true)
    (hacc : ∀ s ∈ acc, ∀ c ∈ s.data, blankChar c = true) :
    ∀ s ∈ (if jsTrimList cur = [] then acc else acc ++ [String.mk cur]),
      ∀ c ∈ s.data, blankChar c = true := by
  split
  · exact hacc
  · intro s hs
    rcases List.mem_append.mp hs with hmem | hmem
    · exact hacc s hmem
    · have hseq : s = String.mk cur := List.mem_singleton.mp hmem
      subst hseq
      exact hcur

/-- On a separator/blank-only input (quotes and escapes never trigger),
every segment the splitter emits is blank-only. -/
theorem splitAux_blank_segments :
    ∀ (n : Nat) (cs cur : List Char) (acc : List String),
      (∀ c ∈ cs, sepOrBlank c = true) →
      (∀ c ∈ cur, blankChar c = true) →
      (∀ s ∈ acc, ∀ c ∈ s.data, blankChar c = true) →
      ∀ s ∈ Guard.splitAux n false false false cur acc cs,
        ∀ c ∈ s.data, blankChar c = true := by
  intro n
  induction n with
  | zero =>
    intro cs cur acc _ hcur hacc
    cases cs with
    | nil => exact splitFin_blank cur acc hcur hacc
    | cons c rest => exact splitFin_blank cur acc hcur hacc
  | succ n ih =>
    intro cs cur acc hcs hcur hacc
    cases cs with
    | nil => exact splitFin_blank cur acc hcur hacc
    | cons c rest =>
      have hrest : ∀ d ∈ rest, sepOrBlank d = true :=
        fun d hd => hcs d (List.mem_cons_of_mem _ hd)
      have hacc1 : ∀ s ∈ acc ++ [String.mk cur], ∀ c ∈ s.data, blankChar c = true := by
        intro s hs
        rcases List.mem_append.mp hs with hmem | hmem
        · exact hacc s hmem
        · have hseq : s = String.mk cur := List.mem_singleton.mp hmem
          subst hseq
          exact hcur
      have hc : sepOrBlank c = true := hcs c (List.mem_cons_self _ _)
      have hcase : c = ';' ∨ c = '|' ∨ c = ' ' ∨ c = chTab ∨ c = chLF := by
        simpa [sepOrBlank, or_assoc] using hc
      have hcurblank : ∀ (b : Char), blankChar b = true →
          ∀ d ∈ cur ++ [b], blankChar d = true := by
        intro b hb d hd
        rcases List.mem_append.mp hd with hmem | hmem
        · exact hcur d hmem
        · rw [List.mem_singleton.mp hmem]
          exact hb
      rcases hcase with rfl | rfl | rfl | rfl | rfl
      · -- ';' pushes the current segment
        show ∀ s ∈ Guard.splitAux n false false false []
            (acc ++ [String.mk cur]) rest, ∀ c ∈ s.data, blankChar c = true
        exact ih rest [] _ hrest (by simp) hacc1
      · -- '|' pushes; a following '|' is skipped
        cases rest with
        | nil =>
          show ∀ s ∈ Guard.splitAux n false false false []
              (acc ++ [String.mk cur]) [], ∀ c ∈ s.data, blankChar c = true
          exact ih [] [] _ (by simp) (by simp) hacc1
        | cons r rest2 =>
          have hr : sepOrBlank r = true := hrest r (List.mem_cons_self _ _)
          have hrest2 : ∀ d ∈ rest2, sepOrBlank d = true :=
            fun d hd => hrest d (List.mem_cons_of_mem _ hd)
          have hrcase : r = ';' ∨ r = '|' ∨ r = ' ' ∨ r = chTab ∨ r = chLF := by
            simpa [sepOrBlank, or_assoc] using hr
          rcases hrcase with rfl | rfl | rfl | rfl | rfl
          · show ∀ s ∈ Guard.splitAux n false false false []
                (acc ++ [String.mk cur]) (';' :: rest2),
                ∀ c ∈ s.data, blankChar c = true
            exact ih (';' :: rest2) [] _ hrest (by simp) hacc1
          · show ∀ s ∈ Guard.splitAux n false false false []
                (acc ++ [String.mk cur]) rest2,
                ∀ c ∈ s.data, blankChar c = true
            exact ih rest2 [] _ hrest2 (by simp) hacc1
          · show ∀ s ∈ Guard.splitAux n false false false []
                (acc ++ [String.mk cur]) (' ' :: rest2),
                ∀ c ∈ s.data, blankChar c = true
            exact ih (' ' :: rest2) [] _ hrest (by simp) hacc1
          · show ∀ s ∈ Guard.splitAux n false false false []
                (acc ++ [String.mk cur]) (chTab :: rest2),
                ∀ c ∈ s.data, blankChar c = true
            exact ih (chTab :: rest2) [] _ hrest (by simp) hacc1
          · show ∀ s ∈ Guard.splitAux n false false false []
                (acc ++ [String.mk cur]) (chLF :: rest2),
                ∀ c ∈ s.data, blankChar c = true
            exact ih (chLF :: rest2) [] _ hrest (by simp) hacc1
      · -- space is accumulated
        show ∀ s ∈ Guard.splitAux n false false false (cur ++ [' ']) acc rest,
            ∀ c ∈ s.data, blankChar c = true
        exact ih rest _ acc hrest (hcurblank ' ' (by decide)) hacc
      · -- tab is accumulated
        show ∀ s ∈ Guard.splitAux n false false false (cur ++ [chTab]) acc rest,
            ∀ c ∈ s.data, blankChar c = true
        exact ih rest _ acc hrest (hcurblank chTab (by decide)) hacc
      · -- newline is accumulated
        show ∀ s ∈ Guard.splitAux n false false false (cur ++ [chLF]) acc rest,
            ∀ c ∈ s.data, blankChar c = true
        exact ih rest _ acc hrest (hcurblank chLF (by decide)) hacc

/-- A blank-only segment yields no command name. -/
theorem extractCommandName_of_blank (s : String)
    (h : ∀ c ∈ s.data, blankChar c = true) :
    Guard.extractCommandName s = "" := by
  unfold Guard.extractCommandName
  rw [jsTrimList_of_blank h]
  rfl

/-- The segment loop allows a list of blank-only segments. -/
theorem checkSegments_of_blank (allowedCommands : List String) :
    ∀ segs : List String,
      (∀ s ∈ segs, ∀ c ∈ s.data, blankChar c = true) →
      Guard.checkSegments allowedCommands segs = { allowed := true } := by
  intro segs
  induction segs with
  | nil => intro _; rfl
  | cons seg rest ih =>
    intro h
    unfold Guard.checkSegments
    rw [if_pos (extractCommandName_of_blank seg (h seg (List.mem_cons_self _ _)))]
    exact ih (fun s hs => h s (List.mem_cons_of_mem _ hs))

/-- Claim C10: a command containing only unquoted separators and blanks —
including the empty string, whitespace-only strings, and strings of `;` /
`|` — is allowed by `guardCommand`: no critical pattern matches it, and no
segment yields a program name to check. -/
theorem c10_separator_only_allowed (allowedCommands : List String)
    (command : String) (h : ∀ c ∈ command.data, sepOrBlank c = true) :
    Guard.guardCommand allowedCommands command = { allowed := true } ∧
    Guard.criticalCheck command = none ∧
    Guard.guardCommand Guard.DEFAULT_ALLOWED_COMMANDS "" = { allowed := true } ∧
    Guard.guardCommand Guard.DEFAULT_ALLOWED_COMMANDS "   " = { allowed := true } ∧
    Guard.guardCommand Guard.DEFAULT_ALLOWED_COMMANDS ";" = { allowed := true } ∧
    Guard.guardCommand Guard.DEFAULT_ALLOWED_COMMANDS "|" = { allowed := true } ∧
    Guard.guardCommand Guard.DEFAULT_ALLOWED_COMMANDS "; | ;; ||" =
      { allowed := true } := by
  have hcrit := criticalCheck_sep_none command h
  have hsegs : ∀ s ∈ Guard.splitCommandSegments command,
      ∀ c ∈ s.data, blankChar c = true := by
    unfold Guard.splitCommandSegments
    exact splitAux_blank_segments command.data.length command.data [] [] h
      (by simp) (by simp)
  refine ⟨?_, hcrit, by decide, by decide, by decide, by decide, by decide⟩
  unfold Guard.guardCommand
  rw [hcrit]
  exact checkSegments_of_blank allowedCommands _ hsegs

/-- Witness for C10 at a concrete separator-only command. -/
theorem c10_separator_only_allowed_w :
    Guard.guardCommand Guard.DEFAULT_ALLOWED_COMMANDS "; | " =
      { allowed := true } :=
  (c10_separator_only_allowed Guard.DEFAULT_ALLOWED_COMMANDS "; | "
    (by decide)).1

/-- Flattening the turn partition gives back the transcript (loop
invariant). -/
theorem turnsAux_flatten :
    ∀ (msgs cur : List Agent.AgentMessage) (acc : List (List Agent.AgentMessage)),
      (Agent.turnsAux msgs cur acc).flatten = acc.flatten ++ cur ++ msgs := by
  intro msgs
  induction msgs with
  | nil =>
    intro cur acc
    unfold Agent.turnsAux
    split
    case isTrue hcur =>
      rw [List.isEmpty_iff.mp hcur]
      simp
    case isFalse hcur => simp
  | cons m rest ih =>
    intro cur acc
    unfold Agent.turnsAux
    split
    case isTrue hcond =>
      rw [ih]
      simp
    case isFalse hcond =>
      rw [ih]
      simp

/-- Flattening the turns of a transcript gives back the transcript. -/
theorem turnsOf_flatten (msgs : List Agent.AgentMessage) :
    (Agent.turnsOf msgs).flatten = msgs := by
  unfold Agent.turnsOf
  rw [turnsAux_flatten]
  simp

/-- Claim C5, counterexample: a transcript of 11 single-message user turns
whose texts are all empty has more than 10 turns, yet `trimContextByTurns`
returns just the last 10 turns with *no* synthetic
`[Prior context trimmed. ...]` message prepended (the sampled summary is
empty, so the prepend is skipped). -/
theorem c5_counterexample :
    10 < (Agent.turnsOf (List.replicate 11
      { role := Agent.Role.user, content := Agent.MsgContent.str "",
        timestamp := 0 })).length ∧
    Agent.trimContextByTurns 0 (List.replicate 11
      { role := Agent.Role.user, content := Agent.MsgContent.str "",
        timestamp := 0 }) =
      (List.replicate 10
        { role := Agent.Role.user, content := Agent.MsgContent.str "",
          timestamp := 0 }, 1, "") := by
  decide

/-- Claim C5, amended: with at most 10 turns the transcript is returned
unchanged with `droppedTurns = 0`; with more than 10 turns exactly the last
10 turns are kept (a suffix of the transcript), `droppedTurns` is the excess,
and the summary is the last dropped turn's first user text, header-stripped
and sampled to 100 characters (with a `...` suffix when cut); when that
summary is nonempty one synthetic leading user message
`[Prior context trimmed. Last topic before trim: <summary>]` is prepended,
and when it is empty nothing is prepended. -/
theorem c5_trimContextByTurns (now : Nat)
    (messages : List Agent.AgentMessage) :
    ((Agent.turnsOf messages).length ≤ 10 →
      Agent.trimContextByTurns now messages = (messages, 0, "")) ∧
    (10 < (Agent.turnsOf messages).length →
      (Agent.trimContextByTurns now messages).2.1 =
        (Agent.turnsOf messages).length - 10 ∧
      (Agent.trimContextByTurns now messages).2.2 =
        Agent.turnSummary ((Agent.turnsOf messages).getD
          ((Agent.turnsOf messages).length - 10 - 1) []) ∧
      ((Agent.turnsOf messages).drop
        ((Agent.turnsOf messages).length - 10)).length = 10 ∧
      ((Agent.turnsOf messages).drop
        ((Agent.turnsOf messages).length - 10)).flatten <:+ messages ∧
      ((Agent.trimContextByTurns now messages).2.2 ≠ "" →
        (Agent.trimContextByTurns now messages).1 =
          { role := Agent.Role.user,
            content := Agent.MsgContent.str
              ("[Prior context trimmed. Last topic before trim: "
                ++ (Agent.trimContextByTurns now messages).2.2 ++ "]"),
            timestamp :=
              match (((Agent.turnsOf messages).drop
                  ((Agent.turnsOf messages).length - 10)).flatten).head? with
              | some m => m.timestamp
              | none => now } ::
          ((Agent.turnsOf messages).drop
            ((Agent.turnsOf messages).length - 10)).flatten) ∧
      ((Agent.trimContextByTurns now messages).2.2 = "" →
        (Agent.trimContextByTurns now messages).1 =
          ((Agent.turnsOf messages).drop
            ((Agent.turnsOf messages).length - 10)).flatten)) := by
  constructor
  · intro hle
    simp only [Agent.trimContextByTurns]
    rw [if_pos hle]
  · intro hgt
    have hsuffix : ((Agent.turnsOf messages).drop
        ((Agent.turnsOf messages).length - 10)).flatten <:+ messages := by
      refine ⟨((Agent.turnsOf messages).take
        ((Agent.turnsOf messages).length - 10)).flatten, ?_⟩
      rw [← List.flatten_append, List.take_append_drop, turnsOf_flatten]
    simp only [Agent.trimContextByTurns]
    rw [if_neg (Nat.not_le.mpr hgt)]
    split
    case isTrue hsum =>
      refine ⟨rfl, rfl, ?_, hsuffix, fun _ => rfl, fun habs => absurd habs hsum⟩
      rw [List.length_drop]
      omega
    case isFalse hsum =>
      refine ⟨rfl, rfl, ?_, hsuffix, ?_, fun _ => rfl⟩
      · rw [List.length_drop]
        omega
      · intro habs
        exact absurd (not_not.mp hsum) habs

/-- Witness for C5 (amended): a 12-turn transcript drops 2 turns. -/
theorem c5_trimContextByTurns_w :
    (Agent.trimContextByTurns 0 (List.replicate 12
      { role := Agent.Role.user, content := Agent.MsgContent.str "topic",
        timestamp := 0 })).2.1 =
      (Agent.turnsOf (List.replicate 12
        { role := Agent.Role.user, content := Agent.MsgContent.str "topic",
          timestamp := 0 })).length - 10 :=
  ((c5_trimContextByTurns 0 _).2 (by decide)).1

/-- Witness for C4 (amended) at a concrete store state and times. -/
theorem c4_logMessage_dedup_w :
    (Store.logMessage 59999 "iso2"
      (Store.expireDedup 59999
        (Store.logMessage 0 "iso1" {} "C1"
          { date := "d", ts := "7", user := "U", text := "x", isBot := false }).1)
      "C1" { date := "d", ts := "7", user := "U", text := "x", isBot := false }).2
    = false :=
  (c4_logMessage_dedup {}
    (Store.logMessage 0 "iso1" {} "C1"
      { date := "d", ts := "7", user := "U", text := "x", isBot := false }).1
    "C1" { date := "d", ts := "7", user := "U", text := "x", isBot := false }
    0 59999 "iso1" "iso2" (by decide) (by decide)).1

end Mother
